import Mathlib

/-!
Verification of the manual-claim JIT hold controller
(`examples/manual_claim_jit.rs`).

The program configures an external Lightning node, requests a JIT invoice in
manual-claim mode, then runs an event loop that deliberately never claims the
resulting payment; a background listener on stdin fails the payment and stops
the node on operator input. Below is a shallow embedding of that control
logic: pure Lean functions mirroring each piece of the Rust source, followed
by theorems about them.
-/

set_option autoImplicit false

namespace ManualClaimJit

/-! ### Networks and log levels (the configuration surface that is parsed) -/

/-- Bitcoin network selection, mirroring `bitcoin::Network` as used by the
example (`Bitcoin`, `Testnet`, `Regtest`, `Signet` are the arms matched at
lines 29-38 of the source). -/
inductive Network where
  | Bitcoin
  | Testnet
  | Regtest
  | Signet
deriving DecidableEq, Repr

/-- Log verbosity, mirroring `ldk_node::logger::LogLevel` as matched at
lines 44-54 of the source. -/
inductive LogLevel where
  | Trace
  | Debug
  | Info
  | Warn
  | Error
deriving DecidableEq, Repr

/-- ASCII lowercase of one character, as `to_lowercase` acts on the ASCII
configuration names the source matches. -/
def lowerChar (c : Char) : Char :=
  if 65 ≤ c.toNat ∧ c.toNat ≤ 90 then Char.ofNat (c.toNat + 32) else c

/-- Rust `str::to_lowercase` restricted to ASCII, character by character. -/
def lower (s : String) : String := String.mk (s.toList.map lowerChar)

/-- Embedding of the `NETWORK` match (source lines 29-38): lowercase the
value, map the four known names, and fall back to `Bitcoin` with a printed
warning (the `Bool` component records whether the warning branch ran). -/
def parseNetwork (s : String) : Network × Bool :=
  let t := lower s
  if t = "bitcoin" then (Network.Bitcoin, false)
  else if t = "testnet" then (Network.Testnet, false)
  else if t = "regtest" then (Network.Regtest, false)
  else if t = "signet" then (Network.Signet, false)
  else (Network.Bitcoin, true)

/-- Embedding of the `LOG_LEVEL` match (source lines 44-54): lowercase the
value, map the five known names, and fall back to `Debug` with a printed
warning (the `Bool` component records whether the warning branch ran). -/
def parseLogLevel (s : String) : LogLevel × Bool :=
  let t := lower s
  if t = "trace" then (LogLevel.Trace, false)
  else if t = "debug" then (LogLevel.Debug, false)
  else if t = "info" then (LogLevel.Info, false)
  else if t = "warn" then (LogLevel.Warn, false)
  else if t = "error" then (LogLevel.Error, false)
  else (LogLevel.Debug, true)

/-- The network/log-level configuration stage of `main` (source lines 28-54).
`env::var` results are modelled as `Option String`; an absent variable takes
the documented default string before parsing, exactly as
`unwrap_or_else(|_| "bitcoin")` / `unwrap_or_else(|_| "Debug")` do. The stage
is a total function: unknown values are never fatal, the run always reaches
the later invoice-creation step with the resulting configuration. Returns
(network, logLevel, networkWarned, logLevelWarned). -/
def configureRun (networkEnv logLevelEnv : Option String) :
    Network × LogLevel × Bool × Bool :=
  let (n, nw) := parseNetwork (networkEnv.getD "bitcoin")
  let (l, lw) := parseLogLevel (logLevelEnv.getD "Debug")
  (n, l, nw, lw)

/-! ### Unsigned-integer parsing (`str::parse` for `u16` / `u32`)

Rust's `FromStr` for unsigned integers accepts an optional leading `+`
followed by one or more ASCII decimal digits, and fails on anything else or
on overflow of the target width. -/

/-- Accumulate decimal digits; `none` on the first non-digit character. -/
def parseDigitsAux : List Char → Nat → Option Nat
  | [], acc => some acc
  | c :: cs, acc =>
    if c.isDigit then parseDigitsAux cs (acc * 10 + (c.toNat - 48))
    else none

/-- Rust `str::parse` for an unsigned integer type whose maximum value is
`bound`: optional leading plus sign, then at least one digit, value within
range. -/
def parseUnsigned (bound : Nat) (s : String) : Option Nat :=
  let cs := s.toList
  let body := match cs with
    | '+' :: rest => rest
    | _ => cs
  match body with
  | [] => none
  | _ =>
    match parseDigitsAux body 0 with
    | some v => if v ≤ bound then some v else none
    | none => none

/-- `s.parse::<u16>()`, as `.ok()`: `Option Nat` with values below 2^16. -/
def parseU16 (s : String) : Option Nat := parseUnsigned 65535 s

/-- `s.parse::<u32>()`, as `.ok()`: `Option Nat` with values below 2^32. -/
def parseU32 (s : String) : Option Nat := parseUnsigned 4294967295 s

/-! ### CLTV delta and invoice expiry configuration -/

/-- The per-network default CLTV delta (source lines 117-122). The source's
wildcard arm (`_ => 80`, required because `bitcoin::Network` is
non-exhaustive) is unreachable over these four constructors. -/
def defaultCltvDelta : Network → Nat
  | Network.Regtest => 10
  | Network.Testnet => 18
  | Network.Signet => 18
  | Network.Bitcoin => 80

/-- The CLTV delta actually passed to the JIT-invoice request (source lines
124-127): `env::var("MIN_FINAL_CLTV_EXPIRY_DELTA").ok().and_then(parse u16
ok).unwrap_or(default_cltv_delta)`. -/
def minFinalCltvExpiryDelta (envVar : Option String) (n : Network) : Nat :=
  (envVar.bind parseU16).getD (defaultCltvDelta n)

/-- The invoice expiry used (source lines 110-113):
`env::var("INVOICE_EXPIRY_SECS").ok().and_then(parse ok).unwrap_or(3600)`.
The `Bool` component records whether any warning is printed on this path;
unlike the network/log-level fallbacks the source has no `eprintln` here, so
it is identically `false`. -/
def invoiceExpirySecs (envVar : Option String) : Nat × Bool :=
  ((envVar.bind parseU32).getD 3600, false)

/-! ### Node start and invoice creation -/

/-- Console lines emitted around `node.start()` (source lines 97-100). -/
inductive StartLog where
  | startupWarning (err : String)
  | continuingAnyway
deriving DecidableEq, Repr

/-- Embedding of the `node.start()` call site (source lines 97-100):
`if let Err(e) = node.start()` prints two warning lines to stderr and falls
through; the run continues either way. Returns (stderr lines, continued). -/
def startStep (startResult : Except String Unit) : List StartLog × Bool :=
  match startResult with
  | Except.ok _ => ([], true)
  | Except.error e => ([StartLog.startupWarning e, StartLog.continuingAnyway], true)

/-- Outcome of the invoice-creation step of `main`. -/
inductive InvoiceOutcome where
  | fatal (err : String)
  | proceed (hash : Nat) (invoice : String)
deriving DecidableEq, Repr

/-- Embedding of the `receive_via_jit_channel_for_hash(..).expect(..)` call
site (source lines 152-155): the node returns either a complete
(payment hash, invoice text) pair or an error; on error `expect` aborts the
process (fatal, no retry), on success the run proceeds with both components.
Payment hashes are modelled as `Nat` (opaque identifiers compared only for
equality). -/
def invoiceStep (result : Except String (Nat × String)) : InvoiceOutcome :=
  match result with
  | Except.ok (h, inv) => InvoiceOutcome.proceed h inv
  | Except.error e => InvoiceOutcome.fatal e

/-! ### The event loop -/

/-- Node events as pattern-matched by the loop (source lines 188-237), with
the fields the source binds; every other event kind falls into `other`. -/
inductive Event where
  | paymentClaimable (paymentId : Nat) (paymentHash : Nat)
      (claimableAmountMsat : Nat) (claimDeadline : Option Nat)
  | channelPending (channelId : Nat) (counterpartyNodeId : Nat)
  | channelReady (channelId : Nat) (counterpartyNodeId : Nat)
  | other (kind : Nat)
deriving DecidableEq, Repr

/-- Commands the program can issue against the node handle (plus process
exit). `claimPayment` corresponds to `claim_for_hash`, which appears only in
a comment in the source and is never called. -/
inductive Call where
  | claimPayment (hash : Nat)
  | failPayment (hash : Nat)
  | stop
  | eventHandled
  | exitProcess
deriving DecidableEq, Repr

/-- Structured view of the console lines printed by the event loop. -/
inductive LogEntry where
  | claimableEventLog (paymentId : Nat) (paymentHash : Nat)
  | amountLog (amountMsat : Nat)
  | deadlineLog (blocks : Nat)
  | holdingLog
  | channelPendingLog (channelId : Nat) (counterpartyNodeId : Nat)
  | channelReadyLog (channelId : Nat) (counterpartyNodeId : Nat)
deriving DecidableEq, Repr

/-- The spec's abstract per-payment state machine
(`Created → AwaitingClaimable → Held → Failed / TimedOut`). The source's
event loop keeps no mutable controller state of its own, so the loop-step
embedding threads this state through unchanged. -/
inductive HoldState where
  | Created
  | AwaitingClaimable
  | Held
  | Failed
  | TimedOut
deriving DecidableEq, Repr

/-- The `match event` dispatch of the loop body (source lines 188-237):
returns the console lines printed and the node commands issued by the chosen
branch. The matching-claimable branch only prints (hash, amount, optional
deadline, holding narration) and deliberately issues nothing; a
claimable event with a different hash does nothing at all; channel
pending/ready only print; other events are ignored. -/
def handleEvent (outstandingHash : Nat) (e : Event) : List LogEntry × List Call :=
  match e with
  | Event.paymentClaimable pid h amt dl =>
    if h = outstandingHash then
      (LogEntry.claimableEventLog pid h :: LogEntry.amountLog amt ::
        ((match dl with
          | some d => [LogEntry.deadlineLog d]
          | none => []) ++ [LogEntry.holdingLog]), [])
    else ([], [])
  | Event.channelPending cid cp => ([LogEntry.channelPendingLog cid cp], [])
  | Event.channelReady cid cp => ([LogEntry.channelReadyLog cid cp], [])
  | Event.other _ => ([], [])

/-- Result of one iteration of the loop body on a drained event. -/
structure StepResult where
  state : HoldState
  logs : List LogEntry
  calls : List Call
deriving DecidableEq, Repr

/-- One iteration of the event loop on a drained event (source lines
187-240): dispatch via `handleEvent`, then `node.event_handled()` exactly
once, after the dispatch, on every branch. The controller state passes
through unchanged because the source loop mutates no state. -/
def loopStep (st : HoldState) (outstandingHash : Nat) (e : Event) : StepResult :=
  let (logs, calls) := handleEvent outstandingHash e
  { state := st, logs := logs, calls := calls ++ [Call.eventHandled] }

/-- A whole run of the event loop over a list of drained events, threading
the controller state and concatenating the node commands issued. -/
def runLoop (st : HoldState) (outstandingHash : Nat) :
    List Event → HoldState × List Call
  | [] => (st, [])
  | e :: rest =>
    let r := loopStep st outstandingHash e
    let tail := runLoop r.state outstandingHash rest
    (tail.1, r.calls ++ tail.2)

/-! ### The shutdown listener -/

/-- Embedding of the stdin listener thread body (source lines 172-180). The
closure captures only the node handle and the payment hash: it consults no
controller state, and both the `fail_for_hash` result and the `stop` result
are discarded with `let _ =`, so the emitted command sequence is the same
for every `st`, `failResult` and `stopResult`: fail the payment, stop the
node, exit the process. -/
def onShutdownSignal (st : HoldState) (outstandingHash : Nat)
    (failResult stopResult : Except String Unit) : List Call :=
  match st, failResult, stopResult with
  | _, _, _ => [Call.failPayment outstandingHash, Call.stop, Call.exitProcess]

/-! ### Helper lemmas -/

/-- On every branch of the dispatch, the loop body issues exactly the single
`event_handled` acknowledgment and no other node command. -/
theorem loopStep_calls (st : HoldState) (hash : Nat) (e : Event) :
    (loopStep st hash e).calls = [Call.eventHandled] := by
  cases e with
  | paymentClaimable pid h amt dl =>
    by_cases hh : h = hash <;> simp [loopStep, handleEvent, hh]
  | channelPending cid cp => rfl
  | channelReady cid cp => rfl
  | other k => rfl

/-- The loop body never changes the threaded controller state. -/
theorem loopStep_state (st : HoldState) (hash : Nat) (e : Event) :
    (loopStep st hash e).state = st := by
  cases e with
  | paymentClaimable pid h amt dl =>
    by_cases hh : h = hash <;> simp [loopStep, handleEvent, hh]
  | channelPending cid cp => rfl
  | channelReady cid cp => rfl
  | other k => rfl

/-- Every node command a whole run of the event loop ever issues is an
acknowledgment. -/
theorem runLoop_calls_ack (st : HoldState) (hash : Nat) (events : List Event) :
    ∀ c ∈ (runLoop st hash events).2, c = Call.eventHandled := by
  induction events generalizing st with
  | nil => intro c hc; simp [runLoop] at hc
  | cons e rest ih =>
    intro c hc
    simp only [runLoop, List.mem_append] at hc
    rcases hc with hc | hc
    · rw [loopStep_calls] at hc
      simpa using hc
    · exact ih _ c hc

/-! ### Claim theorems -/

/-- C1: in every run the controller never issues `claimPayment` (nor, inside
the event loop, `failPayment`); on an event whose hash equals the
outstanding payment hash the loop body leaves the state `Held`, logs the
amount and the deadline when one is present, and issues no settlement
command. -/
theorem c1_matching_claimable_held (hash pid amt : Nat) (dl : Option Nat)
    (events : List Event) :
    (∀ h, Call.claimPayment h ∉ (runLoop HoldState.Held hash events).2) ∧
    (∀ h, Call.failPayment h ∉ (runLoop HoldState.Held hash events).2) ∧
    (loopStep HoldState.Held hash
      (Event.paymentClaimable pid hash amt dl)).state = HoldState.Held ∧
    LogEntry.amountLog amt ∈
      (loopStep HoldState.Held hash (Event.paymentClaimable pid hash amt dl)).logs ∧
    (∀ d, dl = some d → LogEntry.deadlineLog d ∈
      (loopStep HoldState.Held hash (Event.paymentClaimable pid hash amt dl)).logs) := by
  refine ⟨?_, ?_, loopStep_state _ _ _, ?_, ?_⟩
  · intro h hmem
    exact absurd (runLoop_calls_ack HoldState.Held hash events _ hmem) (by simp)
  · intro h hmem
    exact absurd (runLoop_calls_ack HoldState.Held hash events _ hmem) (by simp)
  · simp [loopStep, handleEvent]
  · intro d hd
    subst hd
    simp [loopStep, handleEvent]

/-- C1 witness: a concrete matching claimable event (the spec's scenario,
amount 25000000 msat, deadline 144 blocks) is only logged and triggers no
`claimPayment` in the run consisting of that single event. -/
theorem c1_witness :
    LogEntry.amountLog 25000000 ∈
      (loopStep HoldState.Held 5 (Event.paymentClaimable 1 5 25000000 (some 144))).logs ∧
    LogEntry.deadlineLog 144 ∈
      (loopStep HoldState.Held 5 (Event.paymentClaimable 1 5 25000000 (some 144))).logs ∧
    Call.claimPayment 5 ∉
      (runLoop HoldState.Held 5 [Event.paymentClaimable 1 5 25000000 (some 144)]).2 :=
  ⟨(c1_matching_claimable_held 5 1 25000000 (some 144)
      [Event.paymentClaimable 1 5 25000000 (some 144)]).2.2.2.1,
   (c1_matching_claimable_held 5 1 25000000 (some 144)
      [Event.paymentClaimable 1 5 25000000 (some 144)]).2.2.2.2 144 rfl,
   (c1_matching_claimable_held 5 1 25000000 (some 144)
      [Event.paymentClaimable 1 5 25000000 (some 144)]).1 5⟩

/-- C2: when the shutdown signal fires with a payment held, the listener
issues exactly the sequence fail-payment, node-stop, process-exit — one
`failPayment hash` (before the stop), one `stop` — for every outcome of the
two fallible calls, whose results the source discards. -/
theorem c2_shutdown_sequence (hash : Nat)
    (failResult stopResult : Except String Unit) :
    onShutdownSignal HoldState.Held hash failResult stopResult =
      [Call.failPayment hash, Call.stop, Call.exitProcess] ∧
    (onShutdownSignal HoldState.Held hash failResult stopResult).count
      (Call.failPayment hash) = 1 ∧
    (onShutdownSignal HoldState.Held hash failResult stopResult).count
      Call.stop = 1 ∧
    Call.exitProcess ∈ onShutdownSignal HoldState.Held hash failResult stopResult := by
  refine ⟨rfl, ?_, ?_, ?_⟩ <;> simp [onShutdownSignal, List.count_cons]

/-- C3 counterexample: the claim says the shutdown sequence skips the
fail-payment call when no payment is outstanding, but in state `Created`
(and every other state) the listener still issues `failPayment`: the source
closure consults no state. -/
theorem c3_counterexample :
    Call.failPayment 7 ∈
      onShutdownSignal HoldState.Created 7 (Except.ok ()) (Except.ok ()) := by
  decide

/-- C3 amended: whatever the payment state when the shutdown signal fires,
the listener unconditionally issues `failPayment hash`, then `stop`, then
exits; it never skips the fail call. -/
theorem c3_amended_unconditional_fail (st : HoldState) (hash : Nat)
    (failResult stopResult : Except String Unit) :
    onShutdownSignal st hash failResult stopResult =
      [Call.failPayment hash, Call.stop, Call.exitProcess] := rfl

/-- C4: every drained event, on every dispatch branch, is acknowledged to
the node exactly once, and the acknowledgment comes after all commands of
the dispatch. -/
theorem c4_ack_exactly_once (st : HoldState) (hash : Nat) (e : Event) :
    (loopStep st hash e).calls.count Call.eventHandled = 1 ∧
    ∃ pre, (loopStep st hash e).calls = pre ++ [Call.eventHandled] ∧
      Call.eventHandled ∉ pre := by
  refine ⟨?_, [], ?_, ?_⟩ <;> simp [loopStep_calls]

/-- C5: a claimable event whose hash differs from the outstanding payment
hash produces no state transition, no log line and no settlement command;
the loop body only acknowledges it. -/
theorem c5_nonmatching_ignored (st : HoldState) (hash pid h amt : Nat)
    (dl : Option Nat) (hne : h ≠ hash) :
    loopStep st hash (Event.paymentClaimable pid h amt dl) =
      { state := st, logs := [], calls := [Call.eventHandled] } := by
  simp [loopStep, handleEvent, hne]

/-- C5 witness: a concrete claimable event for hash 3 while hash 5 is
outstanding is merely acknowledged. -/
theorem c5_witness :
    loopStep HoldState.Held 5 (Event.paymentClaimable 1 3 100 none) =
      { state := HoldState.Held, logs := [], calls := [Call.eventHandled] } :=
  c5_nonmatching_ignored HoldState.Held 5 1 3 100 none (by decide)

/-- C6: the CLTV delta is read from configuration: a set
`MIN_FINAL_CLTV_EXPIRY_DELTA` value that parses as a `u16` is used verbatim,
otherwise the per-network default applies — 10 for regtest, 18 for
testnet and signet, 80 for mainnet. -/
theorem c6_cltv_from_config (envVar : Option String) (n : Network) :
    (∀ s v, envVar = some s → parseU16 s = some v →
      minFinalCltvExpiryDelta envVar n = v) ∧
    (envVar.bind parseU16 = none →
      minFinalCltvExpiryDelta envVar n = defaultCltvDelta n) ∧
    defaultCltvDelta Network.Regtest = 10 ∧
    defaultCltvDelta Network.Testnet = 18 ∧
    defaultCltvDelta Network.Signet = 18 ∧
    defaultCltvDelta Network.Bitcoin = 80 := by
  refine ⟨?_, ?_, rfl, rfl, rfl, rfl⟩
  · intro s v hs hv
    subst hs
    simp [minFinalCltvExpiryDelta, hv]
  · intro h
    simp [minFinalCltvExpiryDelta, h]

/-- C6 witness: the override "12" is used on mainnet, and with the variable
unset the regtest default 10 applies. -/
theorem c6_witness :
    minFinalCltvExpiryDelta (some "12") Network.Bitcoin = 12 ∧
    minFinalCltvExpiryDelta none Network.Regtest = 10 :=
  ⟨(c6_cltv_from_config (some "12") Network.Bitcoin).1 "12" 12 rfl (by decide),
   (c6_cltv_from_config none Network.Regtest).2.1 rfl⟩

/-- C7: an unrecognized NETWORK value together with an unrecognized
LOG_LEVEL value degrade to the documented defaults (Bitcoin mainnet, Debug)
with both warning branches taken, and the configuration stage still returns
a configuration — it is total, never fatal, so the run proceeds to invoice
creation. -/
theorem c7_unknown_config_degrades (s t : String)
    (hn1 : lower s ≠ "bitcoin") (hn2 : lower s ≠ "testnet")
    (hn3 : lower s ≠ "regtest") (hn4 : lower s ≠ "signet")
    (hl1 : lower t ≠ "trace") (hl2 : lower t ≠ "debug")
    (hl3 : lower t ≠ "info") (hl4 : lower t ≠ "warn")
    (hl5 : lower t ≠ "error") :
    configureRun (some s) (some t) =
      (Network.Bitcoin, LogLevel.Debug, true, true) := by
  simp [configureRun, parseNetwork, parseLogLevel,
    hn1, hn2, hn3, hn4, hl1, hl2, hl3, hl4, hl5]

/-- C7 witness: NETWORK "foo" and LOG_LEVEL "loud" fall back to mainnet and
Debug, each with its warning. -/
theorem c7_witness :
    configureRun (some "foo") (some "loud") =
      (Network.Bitcoin, LogLevel.Debug, true, true) :=
  c7_unknown_config_degrades "foo" "loud" (by decide) (by decide) (by decide)
    (by decide) (by decide) (by decide) (by decide) (by decide) (by decide)

/-- C8: the invoice-creation step either proceeds with a complete
(hash, invoice) pair or aborts the run with the node's reported error; no
partially populated result and no continuation past a failure exist. -/
theorem c8_invoice_all_or_nothing (result : Except String (Nat × String)) :
    (∃ h inv, result = Except.ok (h, inv) ∧
      invoiceStep result = InvoiceOutcome.proceed h inv) ∨
    (∃ e, result = Except.error e ∧
      invoiceStep result = InvoiceOutcome.fatal e) := by
  cases result with
  | ok p => exact Or.inl ⟨p.1, p.2, rfl, rfl⟩
  | error e => exact Or.inr ⟨e, rfl, rfl⟩

/-- C9: an error from `node.start()` is not fatal: the step prints the two
warning lines carrying the error and the run continues (second component
`true`). -/
theorem c9_start_error_nonfatal (e : String) :
    startStep (Except.error e) =
      ([StartLog.startupWarning e, StartLog.continuingAnyway], true) := rfl

/-- C10: whenever INVOICE_EXPIRY_SECS is unset or fails to parse as an
unsigned integer, the expiry used is exactly 3600 seconds and no warning is
emitted on this path. -/
theorem c10_expiry_default (envVar : Option String)
    (h : envVar.bind parseU32 = none) :
    invoiceExpirySecs envVar = (3600, false) := by
  simp [invoiceExpirySecs, h]

/-- C10 witness: the unparsable value "soon" yields the 3600-second default
with no warning. -/
theorem c10_witness : invoiceExpirySecs (some "soon") = (3600, false) :=
  c10_expiry_default (some "soon") (by decide)

end ManualClaimJit
